import Mathlib

set_option maxRecDepth 8000
set_option maxHeartbeats 1000000

/-!
Shallow embedding of the protocol engine of the virtual-shields-arduino driver
(src/VirtualShield/VirtualShield.cpp together with src/VirtualShield/SensorModels.h),
and proofs about its framing, dispatch, correlation and registry behaviour.

Conventions of the embedding:
- byte streams and buffered text are `List Char`;
- the C `unsigned int` of the AVR reference platform is 16 bits, modelled as
  `Nat` with explicit `% 65536`; the C `int` id counter is a 16-bit signed
  value modelled as `Int` with explicit two's-complement wrapping;
- the transport, the clock and the generic JSON object parser are external
  collaborators: the transport is an explicit list of available bytes, the
  clock is abstracted into "which loop iterations fit before the deadline",
  and the parser is a function parameter `List Char → Option JsonRoot`;
- the `double`-valued `Value` field of an event is omitted from the record
  (floating point is outside the embedding; no claim mentions it).
-/

/-- Fixed capacity of the receive buffer (`maxReadBuffer`, VirtualShield.cpp line 77). -/
def maxReadBuffer : Nat := 128

/-- Bound of the sensor registry (`maxRememberedSensors`, line 75). -/
def maxRememberedSensors : Nat := 10

/-- The opening-brace byte. -/
def lbrace : Char := '\x7b'

/-- The closing-brace byte. -/
def rbrace : Char := '\x7d'

/-- Contribution of one byte to the running brace depth (`bracketCount` handling,
lines 197-201). -/
def braceDelta (c : Char) : Int :=
  if c = lbrace then 1 else if c = rbrace then -1 else 0

/-- Brace depth of a byte sequence: number of opening minus closing braces. -/
def braceDepth (s : List Char) : Int := (s.map braceDelta).sum

/-- State of the Frame Assembler: the contents of `readBuffer` up to
`readBufferIndex` (lines 80-81), and `bracketCount` (line 83). -/
structure AsmState where
  readBuffer : List Char
  bracketCount : Int
deriving DecidableEq, Repr

/-- Initial assembler state: empty buffer, zero depth (lines 81, 83). -/
def asmInit : AsmState := ⟨[], 0⟩

/-- The buffer append of lines 193-195: the byte is stored only while
`readBufferIndex < maxReadBuffer - 1`; beyond that it is dropped. -/
def pushChar (st : AsmState) (c : Char) : List Char :=
  if st.readBuffer.length < maxReadBuffer - 1 then st.readBuffer ++ [c] else st.readBuffer

/-- One iteration of the receive loop of `VirtualShield::getEvent` (lines 185-215)
for one byte `c`: append to the buffer (capped), then adjust `bracketCount`;
on a `}` that brings the depth below 1, deliver the buffer as a completed frame
and reset, where the delivery guard `readBufferIndex < maxReadBuffer` (line 204)
is kept exactly as in the source (its `else` branch, line 212, resets without
delivering). -/
def processChar (st : AsmState) (c : Char) : AsmState × Option (List Char) :=
  if c = lbrace then (⟨pushChar st c, st.bracketCount + 1⟩, none)
  else if c = rbrace then
    if st.bracketCount - 1 < 1 then
      if (pushChar st c).length < maxReadBuffer then (⟨[], 0⟩, some (pushChar st c))
      else (⟨[], 0⟩, none)
    else (⟨pushChar st c, st.bracketCount - 1⟩, none)
  else (⟨pushChar st c, st.bracketCount⟩, none)

/-- The drain loop of `VirtualShield::getEvent` (lines 185-215): consume available
bytes one at a time; on the first completed frame stop (the `break` of line 209)
and report the frame and the bytes still unread. Returns
(final state, delivered frame if any, remaining transport bytes). -/
def getEventLoop : AsmState → List Char → AsmState × Option (List Char) × List Char
  | st, [] => (st, none, [])
  | st, c :: rest =>
    match processChar st c with
    | (st', some frame) => (st', some frame, rest)
    | (st', none) => getEventLoop st' rest

/-- A balanced brace-delimited object: starts with `{`, total brace depth zero,
and every proper nonempty prefix has positive depth. -/
def BalancedObject (s : List Char) : Prop :=
  s.head? = some lbrace ∧ braceDepth s = 0 ∧
    ∀ n, n < s.length → 0 < n → 0 < braceDepth (s.take n)

instance (s : List Char) : Decidable (BalancedObject s) := by
  unfold BalancedObject
  infer_instance

/-- Concrete balanced frame with an inner object, used as witness input. -/
def cexFrame : List Char := [lbrace, 'a', lbrace, 'b', rbrace, 'c', rbrace]

/-- First poll chunk of `cexFrame`, ending just past the inner closing brace. -/
def cexChunk1 : List Char := [lbrace, 'a', lbrace, 'b', rbrace]

/-- Second poll chunk of `cexFrame`, carrying the outermost closing brace. -/
def cexChunk2 : List Char := ['c', rbrace]

/-- Concrete 129-byte balanced frame exceeding the 128-byte buffer capacity. -/
def cexOver : List Char := lbrace :: (List.replicate 127 'a' ++ [rbrace])

/-- Concrete minimal legitimate frame. -/
def cexSmall : List Char := [lbrace, rbrace]

/-- The system-event discriminator character (`SYSTEM_EVENT`, line 71). -/
def SYSTEM_EVENT : Char := '!'

/-- Outbound constant "SYSTEM" (`SERVICE_NAME_SERVICE`, line 64). -/
def SERVICE_NAME_SERVICE : String := "SYSTEM"

/-- Outbound constant "PONG" (`PONG`, line 65). -/
def PONG : String := "PONG"

/-- One step of `VirtualShield::hash` (lines 680-689): `hash = hash * 101 + *s`,
in the 16-bit `unsigned int` arithmetic of the AVR reference platform. -/
def hashStep (h : Nat) (c : Char) : Nat := (h * 101 + c.toNat) % 65536

/-- `VirtualShield::hash` in scan-to-terminator mode with the default seed 0. -/
def hashChars (s : List Char) : Nat := s.foldl hashStep 0

/-- Hash of a possibly-absent text: `hash` applied to the text when present.
(For an absent field the source would call `hash(NULL)` and read address zero;
the claims settled here only involve present fields, and the absent case is
modelled as 0.) -/
def hashOpt (s : Option String) : Nat := s.elim 0 (fun t => hashChars t.toList)

/-- Modelled from the spec: `PING_HASH` is defined in VirtualShield.h, which is
not under src/; spec section 6 names `PING` as the system Result keyword and
section 4.4 says the hash maps Result text to the Ping kind. -/
def PING_HASH : Nat := hashChars "PING".toList

/-- Modelled from the spec: `REFRESH_HASH` (VirtualShield.h, not under src/);
spec section 4.4 names the Refresh kind by its refresh keyword. -/
def REFRESH_HASH : Nat := hashChars "REFRESH".toList

/-- Modelled from the spec: `CONNECT_HASH` (VirtualShield.h, not under src/). -/
def CONNECT_HASH : Nat := hashChars "CONNECT".toList

/-- Modelled from the spec: `SUSPEND_HASH` (VirtualShield.h, not under src/). -/
def SUSPEND_HASH : Nat := hashChars "SUSPEND".toList

/-- Modelled from the spec: `RESUME_HASH` (VirtualShield.h, not under src/). -/
def RESUME_HASH : Nat := hashChars "RESUME".toList

/-- The canonical Event record (`ShieldEvent`): the fields the source populates
at lines 252-268. The `double Value` field is omitted (floating point is
outside the embedding) and `cargo` / the peripheral back-reference are
external. -/
structure ShieldEvent where
  tag : Option String
  id : Int
  resultId : Int
  result : Option String
  resultHash : Nat
  action : Option String
  actionHash : Nat
deriving DecidableEq, Repr

/-- Output of the external generic JSON parser for one frame: the values the
decoder reads by key (an absent key decodes to null text or a zero number, as
the ArduinoJson casts at lines 252-268 do). -/
structure JsonRoot where
  type : Option String
  tag : Option String
  pid : Int
  id : Int
  resultId : Int
  result : Option String
  action : Option String
deriving DecidableEq, Repr

/-- Field extraction of `VirtualShield::onJsonReceived` (lines 252-268).
Line 254 first assigns `tag` from `root["Tag"]`; line 262 then overwrites
`tag` with `sensorType` (the `root["Type"]` text), making the line-254
assignment a dead store. The embedding performs both assignments in order. -/
def decodeEvent (root : JsonRoot) : ShieldEvent :=
  let sensorType := root.type
  let _tagLine254 := root.tag
  let id0 : Int := root.pid
  let id1 : Int := if id0 = 0 then root.id else id0
  { tag := sensorType
    id := id1
    resultId := root.resultId
    result := root.result
    resultHash := hashOpt root.result
    action := root.action
    actionHash := hashOpt root.action }

/-- A registered peripheral: the registry dispatches on its one-character
`sensorType` discriminator (`Sensor* sensors[]`, line 88; match at line 317);
its own decode behaviour is an external capability. -/
structure Sensor where
  sensorType : Char
deriving DecidableEq, Repr

/-- `VirtualShield::addSensor` (lines 104-112): refuse when the registry holds
`maxRememberedSensors` entries, else append and report success. -/
def addSensor (sensors : List Sensor) (sensor : Sensor) : List Sensor × Bool :=
  if sensors.length = maxRememberedSensors then (sensors, false)
  else (sensors ++ [sensor], true)

/-- Which of the optional callbacks are registered (the function-pointer
fields tested at lines 286, 292, 299, 306 and 331). -/
structure Callbacks where
  hasOnConnect : Bool
  hasOnSuspend : Bool
  hasOnResume : Bool
  hasOnRefresh : Bool
  hasOnEvent : Bool
deriving DecidableEq, Repr

/-- Observable actions of one dispatch: message sends, peripheral decode
invocations (by registry index), and callback invocations. -/
inductive Effect where
  | sent (service : String) (action : String) (typ : Char)
  | sensorDecode (i : Nat)
  | connectCb
  | suspendCb
  | resumeCb
  | refreshCb
  | eventCb
deriving DecidableEq, Repr

/-- `VirtualShield::sendPingBack` (lines 239-243): one outbound message with
service SYSTEM, action PONG and type `!`. -/
def sendPingBackEffect : Effect := Effect.sent SERVICE_NAME_SERVICE PONG SYSTEM_EVENT

/-- The peripheral scan of lines 313-327: the first registry entry (insertion
order) whose `sensorType` equals the event's type character receives the
decode call and the scan stops (`break`, line 325). `i` is the running index. -/
def sensorScan (typeChar : Char) : List Sensor → Nat → List Effect
  | [], _ => []
  | sensor :: rest, i =>
    if sensor.sensorType = typeChar then [Effect.sensorDecode i]
    else sensorScan typeChar rest (i + 1)

/-- The system-event switch of lines 276-309: one case per hash constant, a
`refresh` flag set by the Refresh/Connect/Resume cases, then the refresh
callback if flagged and registered. In the source this is a C switch with
necessarily distinct case labels; the if-chain tests them in source order. -/
def systemDispatch (e : ShieldEvent) (cb : Callbacks) : List Effect :=
  let pair :=
    if e.resultHash = PING_HASH then ([sendPingBackEffect], false)
    else if e.resultHash = REFRESH_HASH then ([], true)
    else if e.resultHash = CONNECT_HASH then
      ((if cb.hasOnConnect then [Effect.connectCb] else []), true)
    else if e.resultHash = SUSPEND_HASH then
      ((if cb.hasOnSuspend then [Effect.suspendCb] else []), false)
    else if e.resultHash = RESUME_HASH then
      ((if cb.hasOnResume then [Effect.resumeCb] else []), true)
    else (([] : List Effect), false)
  pair.1 ++ (if pair.2 && cb.hasOnRefresh then [Effect.refreshCb] else [])

/-- The dispatch of `VirtualShield::onJsonReceived` (lines 270-334): system
events (`Type[0] == '!'`) go to the system switch, other non-null types to the
peripheral scan, and the general observer callback `onEvent` runs last when
registered (lines 331-334); a null `Type` skips dispatch entirely. An empty
`Type` text reads its NUL terminator as the type character. -/
def onJsonReceivedEffects (root : JsonRoot) (registry : List Sensor)
    (cb : Callbacks) : List Effect :=
  let e := decodeEvent root
  let dispatchEffs :=
    match root.type with
    | none => []
    | some t =>
      match t.toList with
      | [] => sensorScan (Char.ofNat 0) registry 0
      | c :: _ => if c = SYSTEM_EVENT then systemDispatch e cb else sensorScan c registry 0
  dispatchEffs ++ (if cb.hasOnEvent then [Effect.eventCb] else [])

/-- One full poll: `getEvent` followed by the string/JSON pipeline
(`onStringReceived` → `onJsonStringReceived`, lines 342-366). A delivered
frame is handed to the external parser; on success it is dispatched, on
failure it is discarded with no dispatch — but `hasEvent` (the value getEvent
returns, set at line 207) is true whenever a frame completed. Returns
(assembler state, hasEvent, dispatch effects, remaining transport bytes). -/
def pollOnce (parse : List Char → Option JsonRoot) (registry : List Sensor)
    (cb : Callbacks) (st : AsmState) (input : List Char) :
    AsmState × Bool × List Effect × List Char :=
  match getEventLoop st input with
  | (st', none, rest) => (st', false, [], rest)
  | (st', some frame, rest) =>
    match parse frame with
    | none => (st', true, [], rest)
    | some root => (st', true, onJsonReceivedEffects root registry cb, rest)

/-- Two's-complement wrap of the 16-bit signed `int` of the AVR reference
platform. -/
def wrap16 (x : Int) : Int := (x + 32768) % 65536 - 32768

/-- `VirtualShield::beginWrite` (lines 447-465), id handling only (transport
writes assumed successful): mirrors `int id = nextId++; if (nextId < 0)
nextId = 1;` and returns (id used for this message, new counter value). The
counter itself (`nextId`) is declared in VirtualShield.h, which is not under
src/; per spec section 4.5 it is initialized to 1 and lives in a positive
signed 16-bit-or-larger range. -/
def beginWriteStep (nextId : Int) : Int × Int :=
  let id := nextId
  let incremented := wrap16 (nextId + 1)
  (id, if incremented < 0 then 1 else incremented)

/-- `VirtualShield::writeAll` (lines 474-495, likewise 402-407), id handling
only: the source stores `beginWrite`'s `int` result in a `byte` local
(`byte id = beginWrite(serviceName)`, line 475) and returns that, so the
caller receives the id truncated modulo 256. -/
def writeAllStep (nextId : Int) : Int × Int :=
  let r := beginWriteStep nextId
  (r.1 % 256, r.2)

/-- The per-event match test of `VirtualShield::checkSensors` (line 380). -/
def eventMatches (watchForId watchForResultId : Int) (e : ShieldEvent) : Bool :=
  (watchForId == 0 || e.id == watchForId)
    && (watchForResultId == -1 || e.resultId == watchForResultId)

/-- The drain loop of `VirtualShield::checkSensors` (lines 374-384) as called
from `waitFor` (timeout argument 0): every available event is consumed and
`hadEvents` is overwritten by the match status of each one in turn, so the
call reports the match status of the last event drained (false when there was
none). `events` lists the decoded events available in this drain. -/
def checkSensorsDrain (watchForId watchForResultId : Int)
    (events : List ShieldEvent) : Bool :=
  events.foldl (fun _ e => eventMatches watchForId watchForResultId e) false

/-- The polling loop of `VirtualShield::waitFor` (lines 425-427): run drains
until one reports true or the deadline passes. `drains` lists the successive
`checkSensors` drains that the clock admits before the deadline. Returns
(found, number of drains performed). -/
def waitForFoundLoop (id watchForResultId : Int) :
    List (List ShieldEvent) → Bool × Nat
  | [] => (false, 0)
  | b :: rest =>
    if checkSensorsDrain id watchForResultId b then (true, 1)
    else
      let r := waitForFoundLoop id watchForResultId rest
      (r.1, r.2 + 1)

/-- `VirtualShield::waitFor` (lines 415-430): a negative id returns at once
with zero drains (line 417 tests `id < 0` only); otherwise poll until found
or until the drains admitted before the deadline are exhausted, and return
`found ? (asSuccess && id < 0 ? 0 : id) : 0` (line 429). Result is
(returned value, number of drains performed). -/
def waitForModel (id : Int) (asSuccess : Bool) (watchForResultId : Int)
    (drains : List (List ShieldEvent)) : Int × Nat :=
  if id < 0 then (id, 0)
  else
    let r := waitForFoundLoop id watchForResultId drains
    ((if r.1 then (if asSuccess ∧ id < 0 then 0 else id) else 0), r.2)

/-- Parser that fails on every frame (standing in for the generic parser on a
truncated frame). -/
def failingParse : List Char → Option JsonRoot := fun _ => none

/-- All callbacks registered. -/
def cbAll : Callbacks := ⟨true, true, true, true, true⟩

/-- Concrete system-event frame contents: Type "!", Result "PING". -/
def rootPing : JsonRoot :=
  { type := some "!", tag := none, pid := 0, id := 0, resultId := 0,
    result := some "PING", action := none }

/-- Concrete non-system frame contents with Type "L" and Tag "abc". -/
def rootL : JsonRoot :=
  { type := some "L", tag := some "abc", pid := 7, id := 0, resultId := 0,
    result := none, action := none }

/-- Registry with discriminators 'T', 'L', 'S'. -/
def registryTLS : List Sensor := [⟨'T'⟩, ⟨'L'⟩, ⟨'S'⟩]

/-- Concrete event with id 5 (any resultId). -/
def ev5 : ShieldEvent := ⟨none, 5, 0, none, 0, none, 0⟩

/-- Concrete event with id 6 (any resultId). -/
def ev6 : ShieldEvent := ⟨none, 6, 0, none, 0, none, 0⟩

/-- A registry already holding the maximum number of sensors. -/
def tenSensors : List Sensor := List.replicate 10 ⟨'T'⟩

/-- One further sensor. -/
def extraSensor : Sensor := ⟨'X'⟩

theorem braceDepth_nil : braceDepth [] = 0 := rfl

theorem braceDepth_cons (c : Char) (l : List Char) :
    braceDepth (c :: l) = braceDelta c + braceDepth l := by
  simp [braceDepth]

theorem braceDepth_append (a b : List Char) :
    braceDepth (a ++ b) = braceDepth a + braceDepth b := by
  simp [braceDepth]

theorem braceDelta_lbrace : braceDelta lbrace = 1 := by decide

theorem braceDelta_rbrace : braceDelta rbrace = -1 := by decide

theorem neg_one_le_braceDelta (c : Char) : -1 ≤ braceDelta c := by
  unfold braceDelta
  split
  · omega
  · split <;> omega

theorem braceDelta_eq_neg_one (c : Char) (h : braceDelta c = -1) : c = rbrace := by
  by_cases h1 : c = lbrace
  · simp [braceDelta, h1] at h
  · by_cases h2 : c = rbrace
    · exact h2
    · simp [braceDelta, h1, h2] at h

theorem getEventLoop_nil (st : AsmState) : getEventLoop st [] = (st, none, []) := rfl

theorem getEventLoop_cons_of_none (st st' : AsmState) (c : Char) (rest : List Char)
    (h : processChar st c = (st', none)) :
    getEventLoop st (c :: rest) = getEventLoop st' rest := by
  simp [getEventLoop, h]

theorem getEventLoop_cons_of_some (st st' : AsmState) (c : Char) (frame rest : List Char)
    (h : processChar st c = (st', some frame)) :
    getEventLoop st (c :: rest) = (st', some frame, rest) := by
  simp [getEventLoop, h]

theorem pushChar_take (st : AsmState) (c : Char) (p : List Char) :
    pushChar st c ++ p.take (maxReadBuffer - 1 - (pushChar st c).length) =
      st.readBuffer ++ (c :: p).take (maxReadBuffer - 1 - st.readBuffer.length) := by
  unfold pushChar
  by_cases hL : st.readBuffer.length < maxReadBuffer - 1
  · rw [if_pos hL]
    obtain ⟨m, hm⟩ : ∃ m, maxReadBuffer - 1 - st.readBuffer.length = m + 1 :=
      ⟨maxReadBuffer - 1 - st.readBuffer.length - 1, by omega⟩
    have hlen : maxReadBuffer - 1 - (st.readBuffer ++ [c]).length = m := by
      simp [List.length_append]
      omega
    rw [hlen, hm, List.take_succ_cons, List.append_assoc]
    rfl
  · rw [if_neg hL]
    have h0 : maxReadBuffer - 1 - st.readBuffer.length = 0 := by omega
    rw [h0]
    simp

theorem getEventLoop_append (p : List Char) : ∀ (st : AsmState) (q : List Char),
    (∀ n, 0 < n → n ≤ p.length → 0 < st.bracketCount + braceDepth (p.take n)) →
    getEventLoop st (p ++ q) =
      getEventLoop
        ⟨st.readBuffer ++ p.take (maxReadBuffer - 1 - st.readBuffer.length),
         st.bracketCount + braceDepth p⟩ q := by
  induction p with
  | nil =>
    intro st q _
    simp [braceDepth_nil]
  | cons c p ih =>
    intro st q h
    have h1 : 0 < st.bracketCount + braceDelta c := by
      have h' := h 1 (by omega) (by simp)
      simp only [List.take_succ_cons, List.take_zero, braceDepth_cons, braceDepth_nil] at h'
      omega
    have hrec : ∀ n, 0 < n → n ≤ p.length →
        0 < (st.bracketCount + braceDelta c) + braceDepth (p.take n) := by
      intro n hn hnp
      have h' := h (n + 1) (by omega) (by simp; omega)
      simp only [List.take_succ_cons, braceDepth_cons] at h'
      omega
    have hbuf := pushChar_take st c p
    by_cases hb1 : c = lbrace
    · subst hb1
      have hpc : processChar st lbrace = (⟨pushChar st lbrace, st.bracketCount + 1⟩, none) := by
        simp [processChar]
      rw [List.cons_append, getEventLoop_cons_of_none _ _ _ _ hpc, ih _ q (by
        intro n hn hnp
        have := hrec n hn hnp
        rw [braceDelta_lbrace] at this
        exact this)]
      have hbc : (st.bracketCount + 1) + braceDepth p
          = st.bracketCount + braceDepth (lbrace :: p) := by
        rw [braceDepth_cons, braceDelta_lbrace]
        ring
      rw [show (⟨pushChar st lbrace, st.bracketCount + 1⟩ : AsmState).readBuffer
            = pushChar st lbrace from rfl]
      rw [hbuf, hbc]
    · by_cases hb2 : c = rbrace
      · subst hb2
        have hnotfire : ¬ (st.bracketCount - 1 < 1) := by
          rw [braceDelta_rbrace] at h1
          omega
        have hpc : processChar st rbrace
            = (⟨pushChar st rbrace, st.bracketCount - 1⟩, none) := by
          simp [processChar, hnotfire, show ¬ (rbrace = lbrace) from by decide]
        rw [List.cons_append, getEventLoop_cons_of_none _ _ _ _ hpc, ih _ q (by
          intro n hn hnp
          have := hrec n hn hnp
          rw [braceDelta_rbrace] at this
          show 0 < st.bracketCount - 1 + braceDepth (p.take n)
          omega)]
        have hbc : (st.bracketCount - 1) + braceDepth p
            = st.bracketCount + braceDepth (rbrace :: p) := by
          rw [braceDepth_cons, braceDelta_rbrace]
          ring
        rw [show (⟨pushChar st rbrace, st.bracketCount - 1⟩ : AsmState).readBuffer
              = pushChar st rbrace from rfl]
        rw [hbuf, hbc]
      · have hdelta : braceDelta c = 0 := by simp [braceDelta, hb1, hb2]
        have hpc : processChar st c = (⟨pushChar st c, st.bracketCount⟩, none) := by
          simp [processChar, hb1, hb2]
        rw [List.cons_append, getEventLoop_cons_of_none _ _ _ _ hpc, ih _ q (by
          intro n hn hnp
          have := hrec n hn hnp
          rw [hdelta] at this
          show 0 < st.bracketCount + braceDepth (p.take n)
          omega)]
        have hbc : st.bracketCount + braceDepth p
            = st.bracketCount + braceDepth (c :: p) := by
          rw [braceDepth_cons, hdelta]
          ring
        rw [show (⟨pushChar st c, st.bracketCount⟩ : AsmState).readBuffer
              = pushChar st c from rfl]
        rw [hbuf, hbc]

theorem maxReadBuffer_eq : maxReadBuffer = 128 := rfl

theorem processChar_fire (st : AsmState) (h1 : st.bracketCount - 1 < 1)
    (h2 : (pushChar st rbrace).length < maxReadBuffer) :
    processChar st rbrace = (⟨[], 0⟩, some (pushChar st rbrace)) := by
  unfold processChar
  rw [if_neg (show ¬ (rbrace = lbrace) from by decide), if_pos rfl, if_pos h1, if_pos h2]

theorem getEventLoop_final_close (t : List Char) :
    getEventLoop ⟨t.take (maxReadBuffer - 1), 1⟩ [rbrace] =
      (asmInit, some ((t ++ [rbrace]).take (maxReadBuffer - 1)), []) := by
  by_cases hlt : t.length < maxReadBuffer - 1
  · have ht : t.take (maxReadBuffer - 1) = t := List.take_of_length_le (by omega)
    have hpush : pushChar ⟨t.take (maxReadBuffer - 1), 1⟩ rbrace = t ++ [rbrace] := by
      unfold pushChar
      rw [show (⟨t.take (maxReadBuffer - 1), 1⟩ : AsmState).readBuffer
            = t.take (maxReadBuffer - 1) from rfl, ht, if_pos hlt]
    have h2 : (pushChar ⟨t.take (maxReadBuffer - 1), 1⟩ rbrace).length < maxReadBuffer := by
      rw [hpush, List.length_append, maxReadBuffer_eq]
      rw [maxReadBuffer_eq] at hlt
      simp only [List.length_cons, List.length_nil]
      omega
    have hfire := processChar_fire ⟨t.take (maxReadBuffer - 1), 1⟩ (by norm_num) h2
    rw [hpush] at hfire
    rw [getEventLoop_cons_of_some _ _ _ _ _ hfire]
    rw [List.take_of_length_le (show (t ++ [rbrace]).length ≤ maxReadBuffer - 1 from by
      rw [List.length_append, maxReadBuffer_eq]
      rw [maxReadBuffer_eq] at hlt
      simp only [List.length_cons, List.length_nil]
      omega)]
    rfl
  · have hlen : (t.take (maxReadBuffer - 1)).length = maxReadBuffer - 1 := by
      rw [List.length_take]
      exact inf_eq_left.mpr (by omega)
    have hpush : pushChar ⟨t.take (maxReadBuffer - 1), 1⟩ rbrace
        = t.take (maxReadBuffer - 1) := by
      unfold pushChar
      rw [show (⟨t.take (maxReadBuffer - 1), 1⟩ : AsmState).readBuffer
            = t.take (maxReadBuffer - 1) from rfl, if_neg (by rw [hlen]; omega)]
    have h2 : (pushChar ⟨t.take (maxReadBuffer - 1), 1⟩ rbrace).length < maxReadBuffer := by
      rw [hpush, hlen, maxReadBuffer_eq]
      omega
    have hfire := processChar_fire ⟨t.take (maxReadBuffer - 1), 1⟩ (by norm_num) h2
    rw [hpush] at hfire
    rw [getEventLoop_cons_of_some _ _ _ _ _ hfire]
    rw [List.take_append_of_le_length (show maxReadBuffer - 1 ≤ t.length from by omega)]
    rfl

theorem getEventLoop_mid (s p r : List Char) (hs : BalancedObject s)
    (hpr : s = p ++ r) (hr : r ≠ []) :
    getEventLoop ⟨p.take (maxReadBuffer - 1), braceDepth p⟩ r =
      (asmInit, some (s.take (maxReadBuffer - 1)), []) := by
  obtain ⟨hhead, hdepth, hpos⟩ := hs
  have hsne : s ≠ [] := by
    intro h
    rw [h] at hhead
    simp at hhead
  rcases List.eq_nil_or_concat s with h | ⟨t, a, hta⟩
  · exact absurd h hsne
  rw [List.concat_eq_append] at hta
  subst hta
  have htne : t ≠ [] := by
    rintro rfl
    simp only [List.nil_append, List.head?_cons, Option.some.injEq] at hhead
    simp only [List.nil_append] at hdepth
    subst hhead
    rw [braceDepth_cons, braceDepth_nil, braceDelta_lbrace] at hdepth
    omega
  have htpos : 0 < t.length := List.length_pos.mpr htne
  have hdt_pos : 0 < braceDepth t := by
    have h1 : t.length < (t ++ [a]).length := by simp
    have h2 : (t ++ [a]).take t.length = t := List.take_left t [a]
    have h3 := hpos t.length h1 htpos
    rw [h2] at h3
    exact h3
  have hda : braceDelta a = -1 ∧ braceDepth t = 1 := by
    rw [braceDepth_append, braceDepth_cons, braceDepth_nil] at hdepth
    have hge := neg_one_le_braceDelta a
    constructor <;> omega
  have ha : a = rbrace := braceDelta_eq_neg_one a hda.1
  subst ha
  have hdt1 : braceDepth t = 1 := hda.2
  rcases List.eq_nil_or_concat r with h | ⟨r0, b, hrb⟩
  · exact absurd h hr
  rw [List.concat_eq_append] at hrb
  subst hrb
  have htp : t = p ++ r0 := by
    have hd := congrArg List.dropLast hpr
    rw [List.dropLast_concat, ← List.append_assoc, List.dropLast_concat] at hd
    exact hd
  have hb : b = rbrace := by
    have hg := congrArg List.getLast? hpr
    rw [List.getLast?_concat, ← List.append_assoc, List.getLast?_concat] at hg
    exact (Option.some.inj hg).symm
  subst hb
  subst htp
  have happly := getEventLoop_append r0 ⟨p.take (maxReadBuffer - 1), braceDepth p⟩ [rbrace] (by
    intro n hn hnr
    show 0 < braceDepth p + braceDepth (r0.take n)
    have hidx : p.length + n - p.length = n := by omega
    have heq : braceDepth ((p ++ r0).take (p.length + n))
        = braceDepth p + braceDepth (r0.take n) := by
      rw [List.take_append_eq_append_take, List.take_of_length_le (by omega), hidx,
          braceDepth_append]
    have hsub : (((p ++ r0) ++ [rbrace])).take (p.length + n)
        = (p ++ r0).take (p.length + n) :=
      List.take_append_of_le_length (by simp; omega)
    have hp := hpos (p.length + n) (by simp; omega) (by omega)
    rw [hsub, heq] at hp
    exact hp)
  rw [happly]
  have hbuf2 : p.take (maxReadBuffer - 1)
      ++ r0.take (maxReadBuffer - 1 - (p.take (maxReadBuffer - 1)).length)
      = (p ++ r0).take (maxReadBuffer - 1) := by
    rw [List.take_append_eq_append_take]
    congr 2
    rw [List.length_take]
    omega
  have hbc2 : braceDepth p + braceDepth r0 = 1 := by
    rw [← braceDepth_append]
    exact hdt1
  have hstate : (⟨p.take (maxReadBuffer - 1)
      ++ r0.take (maxReadBuffer - 1 - (p.take (maxReadBuffer - 1)).length),
      braceDepth p + braceDepth r0⟩ : AsmState)
      = ⟨(p ++ r0).take (maxReadBuffer - 1), 1⟩ := by
    rw [hbuf2, hbc2]
  rw [hstate, getEventLoop_final_close]

/-- C1: for a byte stream delivering one balanced brace-delimited object split
across two successive getEvent polls, with total length below the buffer
capacity, the Frame Assembler produces no event in the first poll and exactly
one event — carrying the complete frame — in the second poll, i.e. only when
the outermost closing brace returns the brace depth to zero, never upon an
inner closing brace. -/
theorem c1_balanced_split_two_polls (s s1 s2 : List Char)
    (hsplit : s = s1 ++ s2) (hs2 : s2 ≠ []) (hbal : BalancedObject s)
    (hlen : s.length < maxReadBuffer) :
    (getEventLoop asmInit s1).2.1 = none ∧
    getEventLoop (getEventLoop asmInit s1).1 s2 = (asmInit, some s, []) := by
  have hcond : ∀ n, 0 < n → n ≤ s1.length →
      0 < asmInit.bracketCount + braceDepth (s1.take n) := by
    intro n hn hns
    show 0 < (0 : Int) + braceDepth (s1.take n)
    have htake : s.take n = s1.take n := by
      rw [hsplit]
      exact List.take_append_of_le_length hns
    obtain ⟨hhead, hdepth, hpos⟩ := hbal
    have hlt : n < s.length := by
      rw [hsplit, List.length_append]
      have h2p : 0 < s2.length := List.length_pos.mpr hs2
      omega
    have hp := hpos n hlt hn
    rw [htake] at hp
    omega
  have hpoll1 : getEventLoop asmInit s1
      = (⟨s1.take (maxReadBuffer - 1), braceDepth s1⟩, none, []) := by
    have h := getEventLoop_append s1 asmInit [] hcond
    rw [List.append_nil, getEventLoop_nil] at h
    rw [h]
    simp [asmInit]
  refine ⟨by rw [hpoll1], ?_⟩
  rw [hpoll1]
  show getEventLoop ⟨s1.take (maxReadBuffer - 1), braceDepth s1⟩ s2 = _
  rw [getEventLoop_mid s s1 s2 hbal hsplit hs2,
      List.take_of_length_le (by omega)]

/-- Witness for C1 at a concrete split of a frame with an inner object: the
inner closing brace (inside the first chunk) produces no event; the poll
consuming the outer brace delivers the whole frame. -/
theorem c1_witness :
    (getEventLoop asmInit cexChunk1).2.1 = none ∧
    getEventLoop (getEventLoop asmInit cexChunk1).1 cexChunk2
      = (asmInit, some cexFrame, []) :=
  c1_balanced_split_two_polls cexFrame cexChunk1 cexChunk2 (by decide) (by decide)
    (by decide) (by decide)

/-- C2: a frame exceeding the 128-byte capacity is truncated to its first 127
bytes while brace counting continues over the dropped bytes; when its final
closing brace returns the depth to zero, the buffer cursor and the depth are
fully reset (state `asmInit`), and the very next legitimately-sized frame is
delivered intact. -/
theorem c2_overflow_resync (s s' : List Char) (hs : BalancedObject s)
    (hlen : maxReadBuffer < s.length) (hs' : BalancedObject s')
    (hlen' : s'.length < maxReadBuffer) :
    getEventLoop asmInit s = (asmInit, some (s.take (maxReadBuffer - 1)), []) ∧
    s.take (maxReadBuffer - 1) ≠ s ∧
    getEventLoop asmInit s' = (asmInit, some s', []) := by
  have hmain : ∀ u : List Char, BalancedObject u →
      getEventLoop asmInit u = (asmInit, some (u.take (maxReadBuffer - 1)), []) := by
    intro u hu
    have hune : u ≠ [] := by
      intro h
      rw [h] at hu
      exact absurd hu.1 (by simp)
    have hm := getEventLoop_mid u [] u hu (by simp) hune
    rw [show (⟨([] : List Char).take (maxReadBuffer - 1), braceDepth []⟩ : AsmState)
          = asmInit from rfl] at hm
    exact hm
  refine ⟨hmain s hs, ?_, ?_⟩
  · intro he
    have hl := congrArg List.length he
    rw [List.length_take, inf_eq_left.mpr (by omega)] at hl
    omega
  · have h' := hmain s' hs'
    rw [List.take_of_length_le (by omega)] at h'
    exact h'

/-- Witness for C2: the concrete 129-byte frame is truncated to 127 bytes and
resets the assembler; the next 2-byte frame is delivered intact. -/
theorem c2_witness :
    getEventLoop asmInit cexOver
      = (asmInit, some (cexOver.take (maxReadBuffer - 1)), []) ∧
    cexOver.take (maxReadBuffer - 1) ≠ cexOver ∧
    getEventLoop asmInit cexSmall = (asmInit, some cexSmall, []) :=
  c2_overflow_resync cexOver cexSmall (by decide) (by decide) (by decide) (by decide)

theorem system_hash_constants_distinct :
    PING_HASH ≠ REFRESH_HASH ∧ PING_HASH ≠ CONNECT_HASH ∧
    PING_HASH ≠ SUSPEND_HASH ∧ PING_HASH ≠ RESUME_HASH ∧
    REFRESH_HASH ≠ CONNECT_HASH ∧ REFRESH_HASH ≠ SUSPEND_HASH ∧
    REFRESH_HASH ≠ RESUME_HASH ∧ CONNECT_HASH ≠ SUSPEND_HASH ∧
    CONNECT_HASH ≠ RESUME_HASH ∧ SUSPEND_HASH ≠ RESUME_HASH := by
  decide

/-- C3 (code evaluated at the failing input): for the concrete 129-byte
overflowing frame, whose truncated 127-byte prefix the generic parser rejects,
the truncated frame is discarded with no dispatch effects (in particular no
observer callback) — yet `getEvent` reports an event produced
(`hasEvent = true`): the delivery guard of line 204 cannot fail because
appends stop at index 127, so the discard-without-event path of line 212 is
unreachable, contradicting the claim that getEvent reports no event. -/
theorem c3_truncated_frame_reports_event :
    pollOnce failingParse [] cbAll asmInit cexOver = (asmInit, true, [], []) ∧
    maxReadBuffer < cexOver.length := by
  decide

/-- C4 (code evaluated at the failing input): with the id counter at 256 (the
256th consecutive send), `beginWrite` uses id 256, but `writeAll` stores it in
a `byte` local and returns 0 to the caller — neither strictly increasing after
the previous returned id 255, nor nonzero. The counter wrap itself matches the
claim: after the maximum id 32767 the next counter value is exactly 1. -/
theorem c4_writeAll_truncates_id :
    writeAllStep 255 = (255, 256) ∧
    writeAllStep 256 = (0, 257) ∧
    beginWriteStep 256 = (256, 257) ∧
    beginWriteStep 32767 = (32767, 1) ∧
    beginWriteStep 1 = (1, 2) := by
  decide

/-- C7: for every decoded system event (Type text starting with `!`) whose
Result text hashes to the Ping kind, dispatch emits exactly the one PONG
message (service SYSTEM, action PONG, type `!`), followed only by the general
observer callback when registered — in particular exactly one outbound PONG
and no refresh callback invocation. -/
theorem c7_ping_dispatch (root : JsonRoot) (registry : List Sensor)
    (cb : Callbacks) (t : String) (tl : List Char)
    (htype : root.type = some t) (ht : t.toList = SYSTEM_EVENT :: tl)
    (hping : hashOpt root.result = PING_HASH) :
    onJsonReceivedEffects root registry cb
      = sendPingBackEffect :: (if cb.hasOnEvent then [Effect.eventCb] else []) := by
  simp only [onJsonReceivedEffects, htype, ht, systemDispatch, decodeEvent, hping]
  simp

/-- Witness for C7: the concrete PING system event produces exactly the PONG
send and the observer callback. -/
theorem c7_witness :
    onJsonReceivedEffects rootPing [] cbAll = [sendPingBackEffect, Effect.eventCb] := by
  have h := c7_ping_dispatch rootPing [] cbAll "!" [] (by decide) (by decide) (by decide)
  simpa [cbAll] using h

theorem sensorScan_mem (c : Char) (l : List Sensor) : ∀ (k i : Nat),
    (Effect.sensorDecode i ∈ sensorScan c l k ↔
      ∃ j, i = k + j ∧ (l.map Sensor.sensorType).get? j = some c ∧
        ∀ m, m < j → (l.map Sensor.sensorType).get? m ≠ some c) := by
  induction l with
  | nil =>
    intro k i
    simp [sensorScan]
  | cons sensor rest ih =>
    intro k i
    by_cases hmatch : sensor.sensorType = c
    · simp only [sensorScan, if_pos hmatch]
      constructor
      · intro hmem
        have hik : i = k := by simpa using hmem
        exact ⟨0, by omega, by simp [hmatch], by omega⟩
      · rintro ⟨j, hij, hget, hmin⟩
        cases j with
        | zero =>
          simp [hij]
        | succ j' =>
          exact absurd (by simp [hmatch]) (hmin 0 (by omega))
    · simp only [sensorScan, if_neg hmatch]
      rw [ih (k + 1) i]
      constructor
      · rintro ⟨j', hij', hget', hmin'⟩
        refine ⟨j' + 1, by omega, by simpa using hget', ?_⟩
        intro m hm
        cases m with
        | zero =>
          simp [hmatch]
        | succ m' =>
          have hmm := hmin' m' (by omega)
          simpa using hmm
      · rintro ⟨j, hij, hget, hmin⟩
        cases j with
        | zero =>
          simp only [List.map_cons, List.get?] at hget
          exact absurd (Option.some.inj hget) hmatch
        | succ j' =>
          refine ⟨j', by omega, by simpa using hget, ?_⟩
          intro m hm
          have hmm := hmin (m + 1) (by omega)
          simpa using hmm

/-- C8: for every non-system event (Type text starting with a character other
than `!`) and every registry state, dispatch scans the registry in insertion
order and invokes the decode of exactly the first registered peripheral whose
discriminator equals the type character: `sensorDecode i` is among the
dispatch effects iff entry `i` matches and no earlier entry does. -/
theorem c8_first_match_dispatch (root : JsonRoot) (registry : List Sensor)
    (cb : Callbacks) (t : String) (c : Char) (tl : List Char) (i : Nat)
    (htype : root.type = some t) (ht : t.toList = c :: tl) (hc : c ≠ SYSTEM_EVENT) :
    (Effect.sensorDecode i ∈ onJsonReceivedEffects root registry cb ↔
      ((registry.map Sensor.sensorType).get? i = some c ∧
        ∀ j, j < i → (registry.map Sensor.sensorType).get? j ≠ some c)) := by
  have htail : Effect.sensorDecode i ∉ (if cb.hasOnEvent then [Effect.eventCb] else []) := by
    cases hcb : cb.hasOnEvent <;> simp
  simp only [onJsonReceivedEffects, htype, ht, if_neg hc]
  rw [List.mem_append]
  constructor
  · intro hmem
    rcases hmem with hmem | hmem
    · rcases (sensorScan_mem c registry 0 i).mp hmem with ⟨j, hij, hget, hmin⟩
      have hji : j = i := by omega
      subst hji
      exact ⟨hget, fun m hm => hmin m hm⟩
    · exact absurd hmem htail
  · rintro ⟨hget, hmin⟩
    exact Or.inl ((sensorScan_mem c registry 0 i).mpr
      ⟨i, by omega, hget, fun m hm => hmin m hm⟩)

/-- Witness for C8 with discriminators 'T', 'L', 'S' and an event of Type "L":
only the 'L' peripheral (index 1) is decoded; 'T' and 'S' are not. -/
theorem c8_witness :
    Effect.sensorDecode 1 ∈ onJsonReceivedEffects rootL registryTLS cbAll ∧
    Effect.sensorDecode 0 ∉ onJsonReceivedEffects rootL registryTLS cbAll ∧
    Effect.sensorDecode 2 ∉ onJsonReceivedEffects rootL registryTLS cbAll := by
  refine ⟨?_, by decide, by decide⟩
  exact (c8_first_match_dispatch rootL registryTLS cbAll "L" 'L' [] 1 (by decide)
    (by decide) (by decide)).mpr (by decide)

/-- C9 (code evaluated at the failing input): decoding a frame with Type "L"
and Tag "abc" stores the Type text in the event's tag field — the line-254
assignment of `root["Tag"]` is overwritten by `sensorType` at line 262 — so
the decoded event's Tag does not equal the frame's Tag value. -/
theorem c9_tag_overwritten_by_type :
    (decodeEvent rootL).tag = some "L" ∧
    rootL.tag = some "abc" ∧
    (decodeEvent rootL).tag ≠ rootL.tag := by
  decide

theorem foldl_const_last {α β : Type} (f : α → β) : ∀ (b : β) (l : List α),
    l.foldl (fun _ e => f e) b = (l.getLast?).elim b f := by
  intro b l
  induction l generalizing b with
  | nil => rfl
  | cons e l ih =>
    rw [List.foldl_cons, ih (f e)]
    cases l with
    | nil => simp
    | cons x xs =>
      rw [List.getLast?_cons_cons]
      obtain ⟨y, hy⟩ := Option.isSome_iff_exists.mp
        (List.getLast?_isSome.mpr (show (x :: xs) ≠ [] by simp))
      rw [hy]
      rfl

theorem checkSensorsDrain_eq_last (wid wrid : Int) (events : List ShieldEvent) :
    checkSensorsDrain wid wrid events
      = (events.getLast?).elim false (eventMatches wid wrid) :=
  foldl_const_last (eventMatches wid wrid) false events

theorem waitForFoundLoop_found (id wrid : Int) (drains : List (List ShieldEvent)) :
    (waitForFoundLoop id wrid drains).1 = drains.any (checkSensorsDrain id wrid) := by
  induction drains with
  | nil => rfl
  | cons b rest ih =>
    cases hb : checkSensorsDrain id wrid b
    · simp [waitForFoundLoop, hb, ih]
    · simp [waitForFoundLoop, hb]

/-- C5 counterexample: watching id 5 with the any-result filter (-1), a single
drain delivering the matching event (id 5) followed by a non-matching event
(id 6) makes `checkSensors` report the last event's match status, so `waitFor`
returns the not-found result 0 although the matching event arrived within the
timeout — refuting the claim that the first matching event yields success even
when followed by non-matching events in the same poll. -/
theorem c5_counterexample :
    eventMatches 5 (-1) ev5 = true ∧
    eventMatches 5 (-1) ev6 = false ∧
    waitForModel 5 false (-1) [[ev5, ev6]] = (0, 1) := by
  decide

/-- C5 amended: for every positive id, `waitFor` returns the id exactly when
some drain admitted within the timeout ends with a matching event — the last
event of that drain has the watched id and a resultId accepted by the filter
(any resultId when the filter is -1); otherwise — in particular when no
matching event arrives within the timeout — it returns the not-found result 0.
A matching event followed by a non-matching one in the same drain is
overwritten and does not produce success. -/
theorem c5_waitFor_last_match (id wrid : Int) (asSuccess : Bool)
    (drains : List (List ShieldEvent)) (hid : 0 < id) :
    (waitForModel id asSuccess wrid drains).1
      = (if drains.any (fun b => (b.getLast?).elim false (eventMatches id wrid))
         then id else 0) := by
  unfold waitForModel
  rw [if_neg (by omega)]
  show (if (waitForFoundLoop id wrid drains).1
        then (if asSuccess ∧ id < 0 then 0 else id) else 0) = _
  rw [waitForFoundLoop_found id wrid drains,
      funext (checkSensorsDrain_eq_last id wrid)]
  have hinner : (if asSuccess ∧ id < 0 then (0 : Int) else id) = id :=
    if_neg (fun h => absurd h.2 (by omega))
  rw [hinner]

/-- Witness for C5 amended at id 5: a drain ending with the matching event
yields 5; a drain ending with a non-matching event yields 0. -/
theorem c5_witness :
    (waitForModel 5 false (-1) [[ev6, ev5]]).1 = 5 ∧
    (waitForModel 5 false (-1) [[ev5, ev6]]).1 = 0 := by
  constructor
  · rw [c5_waitFor_last_match 5 (-1) false [[ev6, ev5]] (by omega)]
    decide
  · rw [c5_waitFor_last_match 5 (-1) false [[ev5, ev6]] (by omega)]
    decide

/-- C6 counterexample: `waitFor` with id 0 does not return immediately without
polling — the guard of line 417 tests `id < 0` only, so with one admitted
drain containing an event, one poll is performed (id 0 then matches any
event and the call returns 0 via the found path). -/
theorem c6_counterexample :
    waitForModel 0 false (-1) [[ev5]] = (0, 1) := by
  decide

/-- C6 amended: only strictly negative ids are treated as pre-existing error
codes and returned immediately with zero polls performed; id 0 instead enters
the polling loop (where it matches any event). -/
theorem c6_negative_id_immediate (id : Int) (hid : id < 0) (asSuccess : Bool)
    (wrid : Int) (drains : List (List ShieldEvent)) :
    waitForModel id asSuccess wrid drains = (id, 0) := by
  unfold waitForModel
  rw [if_pos hid]

/-- Witness for C6 amended at id -3. -/
theorem c6_witness :
    waitForModel (-3) false (-1) [[ev5]] = (-3, 0) :=
  c6_negative_id_immediate (-3) (by omega) false (-1) [[ev5]]

/-- C10: `addSensor` refuses (returns false, registry contents and count
unchanged) exactly when the registry already holds the maximum of 10 entries;
otherwise it appends the sensor after all existing entries, increments the
count by exactly one, and returns true. -/
theorem c10_addSensor_bound (sensors : List Sensor) (sensor : Sensor) :
    (sensors.length = maxRememberedSensors →
      addSensor sensors sensor = (sensors, false)) ∧
    (sensors.length ≠ maxRememberedSensors →
      addSensor sensors sensor = (sensors ++ [sensor], true) ∧
      (addSensor sensors sensor).1.length = sensors.length + 1) := by
  constructor
  · intro h
    unfold addSensor
    rw [if_pos h]
  · intro h
    unfold addSensor
    rw [if_neg h]
    exact ⟨rfl, by simp⟩

/-- Witness for C10: a registry at the 10-entry bound refuses; an empty
registry appends. -/
theorem c10_witness :
    addSensor tenSensors extraSensor = (tenSensors, false) ∧
    addSensor [] extraSensor = ([extraSensor], true) :=
  ⟨(c10_addSensor_bound tenSensors extraSensor).1 (by decide),
   ((c10_addSensor_bound [] extraSensor).2 (by decide)).1⟩
